import Mathlib

/-!
Shallow embedding of the gru configuration-management core:
the gructl classifier command, the systemd-backed service resource
(Evaluate / Create / Delete / Update), and the etcd minion client
(classifier lookups, fan-out classified-minion query, task submission).
External effects (the etcd store, the dbus capability layer, JSON
codecs, uuid parsing) are modelled as explicit worlds of result
functions; the embedded operations consume them exactly the way the
Go source does.
-/

namespace Gru

/-- Errors flowing through the client and resource code: a typed etcd
error carrying a numeric code, a decode (JSON / parse) error, a dbus
capability error, or a plain message error built with errors.New. -/
inductive Err where
  | etcd (code : Nat)
  | decode (msg : String)
  | dbus (msg : String)
  | msg (s : String)
  deriving DecidableEq, Repr

/-- etcdclient.ErrorCodeKeyNotFound: the typed store code for a missing key. -/
def ErrorCodeKeyNotFound : Nat := 100

/-- Modelled from the spec: minion.EtcdMinionSpace (the minion package is
not among the given sources), the well-known root of the minion keyspace. -/
def EtcdMinionSpace : String := "/gru/minion"

/-- Go filepath.Join on the already-clean segments used by the client. -/
def joinPath (a b : String) : String := a ++ "/" ++ b

/-- Go path.Base: last element of the path after trailing slashes are removed. -/
def pathBase (p : String) : String :=
  if p = "" then "." else
  let q := p.dropRightWhile (fun c => c = '/')
  if q = "" then "/" else (q.splitOn "/").getLastD ""

/-- Modelled from the spec: minion.SimpleClassifier (not among the given
sources), a key/value classifier pair attached to a minion. -/
structure SimpleClassifier where
  Key : String
  Value : String
  deriving DecidableEq, Repr

/-- Modelled from the spec: a minion.MinionTask (not among the given
sources) addressed to one minion; only its serializable content matters here. -/
structure MinionTask where
  TaskID : String
  Command : String
  deriving DecidableEq, Repr

/-- One node returned by the etcd KeysAPI: its key path and stored value. -/
structure EtcdNode where
  key : String
  value : String
  deriving DecidableEq, Repr

/-- The etcd-backed world the minion client runs against: single-key
reads, child listings of a directory key, the per-directory ordered
queues, and the codec functions the client calls. -/
structure EtcdWorld where
  get : String → Except Err String
  list : String → Except Err (List EtcdNode)
  queues : String → List String
  createInOrder : String → String → Except Err String
  unmarshalClassifier : String → Except Err SimpleClassifier
  marshalTask : MinionTask → Except Err String
  uuidParse : String → Option String

/-- Key of one classifier of a minion in etcd. -/
def classifierKey (u key : String) : String :=
  joinPath (joinPath (joinPath EtcdMinionSpace u) "classifier") key

/-- Directory key of a minion's classifier subtree. -/
def classifierDirKey (u : String) : String :=
  joinPath (joinPath EtcdMinionSpace u) "classifier"

/-- Root directory key of one minion. -/
def minionRootDir (u : String) : String := joinPath EtcdMinionSpace u

/-- Directory key of a minion's ordered task queue. -/
def queueDir (u : String) : String := joinPath (minionRootDir u) "queue"

/-- EtcdMinionClient.GetClassifier: single-key read of one classifier,
decoded from its JSON encoding; a missing key is an error. -/
def GetClassifier (w : EtcdWorld) (u key : String) : Except Err SimpleClassifier :=
  match w.get (classifierKey u key) with
  | .error e => .error e
  | .ok v => w.unmarshalClassifier v

/-- Decode every child node of the classifier directory in order; the
first decode failure aborts the traversal with that error. -/
def decodeClassifierNodes (w : EtcdWorld) : List EtcdNode → Except Err (List SimpleClassifier)
  | [] => .ok []
  | n :: ns =>
    match w.unmarshalClassifier n.value with
    | .error e => .error e
    | .ok c =>
      match decodeClassifierNodes w ns with
      | .error e => .error e
      | .ok cs => .ok (c :: cs)

/-- EtcdMinionClient.GetAllClassifiers: recursive listing of the minion's
classifier subtree, decoding every child. -/
def GetAllClassifiers (w : EtcdWorld) (u : String) : Except Err (List SimpleClassifier) :=
  match w.list (classifierDirKey u) with
  | .error e => .error e
  | .ok nodes => decodeClassifierNodes w nodes

/-- Modelled from the spec: utils.ConcurrentMap (not among the given
sources), the concurrency-safe aggregate map keyed by minion-UUID string,
as an association list; Set overwrites the entry of an existing key and
otherwise appends a new entry. -/
def cmSet : List (String × SimpleClassifier) → String → SimpleClassifier →
    List (String × SimpleClassifier)
  | [], k, v => [(k, v)]
  | p :: ps, k, v => if p.1 = k then (k, v) :: ps else p :: cmSet ps k v

/-- Lookup in the aggregate map built by the fan-out workers (the read
side of the spec-modelled concurrent map). -/
def cmGet : List (String × SimpleClassifier) → String → Option SimpleClassifier
  | [], _ => none
  | p :: ps, k => if p.1 = k then some p.2 else cmGet ps k

/-- The uuids the producer goroutine pushes onto the work queue: base
names of the minion-space children that parse as uuids; children whose
base name is not a uuid are logged and skipped. -/
def producerUUIDs (w : EtcdWorld) (nodes : List EtcdNode) : List String :=
  nodes.filterMap (fun n => w.uuidParse (pathBase n.key))

/-- One fan-out worker step: look up the classifier of one minion; a
lookup failure is swallowed and the minion is omitted, a success is
stored in the aggregate map under the minion uuid. -/
def classifierWorkerStep (w : EtcdWorld) (key : String)
    (m : List (String × SimpleClassifier)) (u : String) :
    List (String × SimpleClassifier) :=
  match GetClassifier w u key with
  | .error _ => m
  | .ok c => cmSet m u c

/-- EtcdMinionClient.GetClassifiedMinions: list the minion space, fan the
per-minion classifier lookups out over the worker pool, and gather the
successes into the aggregate map. The workers' lookups are deterministic
and keyed by minion uuid, so the aggregate is independent of the
interleaving and is modelled by a left fold over the produced uuids. -/
def GetClassifiedMinions (w : EtcdWorld) (key : String) :
    Except Err (List (String × SimpleClassifier)) :=
  match w.list EtcdMinionSpace with
  | .error e => .error e
  | .ok nodes => .ok ((producerUUIDs w nodes).foldl (classifierWorkerStep w key) [])

/-- Append one ordered entry under a directory key (etcd CreateInOrder). -/
def appendQueue (w : EtcdWorld) (dir data : String) : EtcdWorld :=
  { w with queues := fun d => if d = dir then w.queues dir ++ [data] else w.queues d }

/-- EtcdMinionClient.SubmitTask: check that the minion root subtree
exists, marshal the task, then perform the atomically-ordered insert
into the minion's queue; the insert itself (etcd CreateInOrder, a
network write) can fail, in which case its error is returned and
nothing is inserted. Returns the call result and the world after any
store mutation. -/
def SubmitTask (w : EtcdWorld) (u : String) (t : MinionTask) :
    Except Err Unit × EtcdWorld :=
  match w.get (minionRootDir u) with
  | .error e => (.error e, w)
  | .ok _ =>
    match w.marshalTask t with
    | .error e => (.error e, w)
    | .ok data =>
      match w.createInOrder (queueDir u) data with
      | .error e => (.error e, w)
      | .ok _ => (.ok (), appendQueue w (queueDir u) data)

/-- resource.StateUnknown. -/
def StateUnknown : String := "unknown"

/-- resource.StateRunning. -/
def StateRunning : String := "running"

/-- resource.StateStopped. -/
def StateStopped : String := "stopped"

/-- resource.State: the observed/declared/update triple Evaluate returns. -/
structure State where
  Current : String
  Want : String
  Update : Bool
  deriving DecidableEq, Repr

/-- resource.ServiceResource with its squashed BaseResource fields: the
declared name, resource type, declared state, the enable-at-boot flag
and the derived systemd unit name. -/
structure ServiceResource where
  Name : String
  ResourceType : String
  State : String
  Enable : Bool
  UnitName : String
  deriving DecidableEq, Repr

/-- The dbus/systemd capability layer: outcome of opening a connection
and the results the live system gives to each call the service resource
makes. startUnit and stopUnit yield the job id and the job result
string received over the result channel. -/
structure Dbus where
  connect : Except Err Unit
  getUnitProperty : String → String → Except Err String
  enableUnitFiles : List String → Except Err (List (String × String × String))
  disableUnitFiles : List String → Except Err (List (String × String))
  startUnit : String → String → Except Err (Nat × String)
  stopUnit : String → String → Except Err (Nat × String)
  reload : Except Err Unit

/-- ServiceResource.unitProperty: connect, then query one property of the
unit; the connection is scoped to the call. -/
def unitProperty (d : Dbus) (s : ServiceResource) (propertyName : String) :
    Except Err String :=
  match d.connect with
  | .error e => .error e
  | .ok _ => d.getUnitProperty s.UnitName propertyName

/-- ServiceResource.unitIsEnabled: decode the UnitFileState property into
a boolean; an unrecognized value (including the explicit "invalid") is an
explicit error, never a silent false. -/
def unitIsEnabled (d : Dbus) (s : ServiceResource) : Except Err Bool :=
  match unitProperty d s "UnitFileState" with
  | .error e => .error e
  | .ok value =>
    if value = "enabled" ∨ value = "static" ∨ value = "enabled-runtime" ∨
        value = "linked" ∨ value = "linked-runtime" then .ok true
    else if value = "disabled" ∨ value = "masked" ∨ value = "masked-runtime" then .ok false
    else .error (.msg "Invalid unit state")

/-- ServiceResource.enableUnit: connect and enable the unit files. -/
def enableUnit (d : Dbus) (s : ServiceResource) : Except Err Unit :=
  match d.connect with
  | .error e => .error e
  | .ok _ =>
    match d.enableUnitFiles [s.UnitName] with
    | .error e => .error e
    | .ok _ => .ok ()

/-- ServiceResource.disableUnit: connect and disable the unit files. -/
def disableUnit (d : Dbus) (s : ServiceResource) : Except Err Unit :=
  match d.connect with
  | .error e => .error e
  | .ok _ =>
    match d.disableUnitFiles [s.UnitName] with
    | .error e => .error e
    | .ok _ => .ok ()

/-- ServiceResource.daemonReload: connect and ask systemd to re-scan
unit files. -/
def daemonReload (d : Dbus) (_s : ServiceResource) : Except Err Unit :=
  match d.connect with
  | .error e => .error e
  | .ok _ => d.reload

/-- ServiceResource.Evaluate, returning the Go pair (State, error): map
the ActiveState string into the closed running/stopped set, then compare
the declared enable-at-boot flag with the observed enablement. -/
def Evaluate (d : Dbus) (s : ServiceResource) : State × Option Err :=
  let resourceState : State := { Current := StateUnknown, Want := s.State, Update := false }
  match unitProperty d s "ActiveState" with
  | .error e => (resourceState, some e)
  | .ok value =>
    let current :=
      if value = "active" ∨ value = "reloading" ∨ value = "activating" then StateRunning
      else if value = "inactive" ∨ value = "failed" ∨ value = "deactivating" then StateStopped
      else StateUnknown
    let st1 : State := { resourceState with Current := current }
    match unitIsEnabled d s with
    | .error e => (st1, some e)
    | .ok enabled => ({ st1 with Update := s.Enable != enabled }, none)

/-- ServiceResource.Create: connect, submit the start job, block on the
job result channel and log the result string; the result string itself
is never turned into an error. -/
def Create (d : Dbus) (s : ServiceResource) : Except Err Unit :=
  match d.connect with
  | .error e => .error e
  | .ok _ =>
    match d.startUnit s.UnitName "replace" with
    | .error e => .error e
    | .ok _ => .ok ()

/-- ServiceResource.Delete: the symmetric stop operation. -/
def Delete (d : Dbus) (s : ServiceResource) : Except Err Unit :=
  match d.connect with
  | .error e => .error e
  | .ok _ =>
    match d.stopUnit s.UnitName "replace" with
    | .error e => .error e
    | .ok _ => .ok ()

/-- The externally visible unit-management calls Update makes, in order. -/
inductive UnitAction where
  | enable
  | disable
  | reload
  deriving DecidableEq, Repr

/-- ServiceResource.Update: read the observed enablement, enable the unit
when declared-enabled and observed-disabled, otherwise disable it (the
enable/disable return value is discarded, exactly as in the source),
then unconditionally daemon-reload; the returned error is the reload's.
The action list records which capability calls were made. -/
def Update (d : Dbus) (s : ServiceResource) : Except Err Unit × List UnitAction :=
  match unitIsEnabled d s with
  | .error e => (.error e, [])
  | .ok enabled =>
    if s.Enable && !enabled then
      let _ := enableUnit d s
      (daemonReload d s, [UnitAction.enable, UnitAction.reload])
    else
      let _ := disableUnit d s
      (daemonReload d s, [UnitAction.disable, UnitAction.reload])

/-- The defaults record built inside NewServiceResource: type "service",
declared state running, enable-at-boot false, empty unit name. -/
def serviceDefaults : ServiceResource :=
  { Name := "", ResourceType := "service", State := StateRunning,
    Enable := false, UnitName := "" }

/-- mergo.Merge(&s, defaults): fill each zero-valued field of the decoded
resource from the defaults record (explicit overrides default, never the
reverse). -/
def mergoMerge (s defaults : ServiceResource) : ServiceResource :=
  { Name := if s.Name = "" then defaults.Name else s.Name
    ResourceType := if s.ResourceType = "" then defaults.ResourceType else s.ResourceType
    State := if s.State = "" then defaults.State else s.State
    Enable := if s.Enable = false then defaults.Enable else s.Enable
    UnitName := if s.UnitName = "" then defaults.UnitName else s.UnitName }

/-- resource.NewServiceResource: decode the declarative object (a decode
failure is returned), merge the defaults — the error mergo.Merge returns
is assigned to err but never checked — set the unit name from the merged
declared name, and return the resource with a nil error. decodeResult is
the outcome of hcl.DecodeObject; mergeErr is whatever error mergo.Merge
produced. -/
def NewServiceResource (decodeResult : Except Err ServiceResource)
    (mergeErr : Option Err) : Except Err ServiceResource :=
  match decodeResult with
  | .error e => .error e
  | .ok s0 =>
    let s1 := mergoMerge s0 serviceDefaults
    let _ := mergeErr
    .ok { s1 with UnitName := s1.Name ++ ".service" }

/-- Errors the gructl classifier command can see from its client calls:
a typed etcd error carrying a code, or an error of any other type (on
which the type assertion err.(etcdclient.Error) fails). -/
inductive CmdErr where
  | etcdErr (code : Nat)
  | otherErr (msg : String)
  deriving DecidableEq, Repr

/-- Outcome of running the classifier command: exit through displayError
— modelled from the spec: displayError (not among the given sources)
reports the error and terminates with the given non-zero code — return
quietly, or print the table rows. -/
inductive CmdOutcome where
  | errExit (code : Nat)
  | quiet
  | table (rows : List (String × String))
  deriving DecidableEq, Repr

/-- The minion-client calls the classifier command makes for one minion:
the key listing and the per-key classifier lookup. -/
structure CmdWorld where
  minionClassifierKeys : Except CmdErr (List String)
  minionClassifier : String → Except CmdErr SimpleClassifier

/-- The command's row loop: one MinionClassifier lookup per key; a lookup
error aborts through displayError(err, 1). -/
def classifierRows (w : CmdWorld) : List String → Except Nat (List (String × String))
  | [] => .ok []
  | k :: ks =>
    match w.minionClassifier k with
    | .error _ => .error 1
    | .ok c =>
      match classifierRows w ks with
      | .error n => .error n
      | .ok rows => .ok ((c.Key, c.Value) :: rows)

/-- command.execClassifierCommand: validate the argument and its uuid,
list the minion's classifier keys ignoring a typed key-not-found etcd
error (any other listing error exits with code 1), return quietly when
no keys remain, otherwise build and print the table. -/
def execClassifierCommand (args : List String)
    (uuidParse : String → Option String) (w : CmdWorld) : CmdOutcome :=
  match args with
  | [] => .errExit 64
  | arg :: _ =>
    match uuidParse arg with
    | none => .errExit 64
    | some _ =>
      match w.minionClassifierKeys with
      | .error e =>
        match e with
        | .etcdErr code =>
          if code = ErrorCodeKeyNotFound then CmdOutcome.quiet
          else .errExit 1
        | .otherErr _ => .errExit 1
      | .ok keys =>
        if keys.isEmpty then .quiet
        else
          match classifierRows w keys with
          | .error n => .errExit n
          | .ok rows => .table (("KEY", "VALUE") :: rows)

/-! Concrete worlds used to witness the theorems below. -/

/-- A dbus world where the unit is active and enabled, every call
succeeds, and the start/stop jobs complete with result "failed". -/
def dbusOkEnabled : Dbus :=
  { connect := .ok ()
    getUnitProperty := fun _ prop =>
      if prop = "ActiveState" then .ok "active"
      else if prop = "UnitFileState" then .ok "enabled"
      else .error (.dbus "unknown property")
    enableUnitFiles := fun _ => .ok []
    disableUnitFiles := fun _ => .ok []
    startUnit := fun _ _ => .ok (1, "failed")
    stopUnit := fun _ _ => .ok (2, "failed")
    reload := .ok () }

/-- Like dbusOkEnabled, but UnitFileState reports the unrecognized
value "garbage". -/
def dbusBadUnitState : Dbus :=
  { dbusOkEnabled with
    getUnitProperty := fun _ prop =>
      if prop = "ActiveState" then .ok "active"
      else if prop = "UnitFileState" then .ok "garbage"
      else .error (.dbus "unknown property") }

/-- A concrete declared service resource. -/
def svcNginx : ServiceResource :=
  { Name := "nginx", ResourceType := "service", State := StateRunning,
    Enable := false, UnitName := "nginx.service" }

/-- A concrete etcd world: two minions m1 and m2 under the minion space;
m1 has a "role" classifier that decodes to role/web, m2 has none; m1's
classifier subtree holds one decodable and one undecodable child; m1's
root subtree exists and its queue starts empty. -/
def wFleet : EtcdWorld :=
  { get := fun k =>
      if k = minionRootDir "m1" then .ok ""
      else if k = classifierKey "m1" "role" then .ok "good"
      else .error (.etcd ErrorCodeKeyNotFound)
    list := fun k =>
      if k = EtcdMinionSpace then
        .ok [⟨"/gru/minion/m1", ""⟩, ⟨"/gru/minion/m2", ""⟩]
      else if k = classifierDirKey "m1" then
        .ok [⟨classifierKey "m1" "role", "good"⟩, ⟨classifierKey "m1" "bogus", "bad"⟩]
      else .error (.etcd ErrorCodeKeyNotFound)
    queues := fun _ => []
    createInOrder := fun _ data => .ok data
    unmarshalClassifier := fun v =>
      if v = "good" then .ok ⟨"role", "web"⟩ else .error (.decode "invalid json")
    marshalTask := fun t => .ok t.Command
    uuidParse := fun s => if s = "" then none else some s }

/-- A command world in which the classifier-key listing fails with the
typed key-not-found etcd error. -/
def cmdWorldMissingDir : CmdWorld :=
  { minionClassifierKeys := .error (.etcdErr ErrorCodeKeyNotFound)
    minionClassifier := fun _ => .error (.etcdErr ErrorCodeKeyNotFound) }

/-! Theorems. -/

/-- C2: whenever Evaluate returns without error, the returned State has
Update = true exactly when the declared enable-at-boot flag differs from
the observed unit enablement; the activation state never sets Update. -/
theorem evaluate_update_iff_enablement_differs (d : Dbus) (s : ServiceResource)
    (h : (Evaluate d s).2 = none) :
    ∃ b, unitIsEnabled d s = .ok b ∧
      ((Evaluate d s).1.Update = true ↔ s.Enable ≠ b) := by
  unfold Evaluate at h ⊢
  cases hA : unitProperty d s "ActiveState" with
  | error e => simp [hA] at h
  | ok v =>
    cases hE : unitIsEnabled d s with
    | error e => simp [hA, hE] at h
    | ok b =>
      refine ⟨b, rfl, ?_⟩
      simp [hA, hE, bne_iff_ne]

theorem evaluate_update_iff_enablement_differs_witness :
    ∃ b, unitIsEnabled dbusOkEnabled svcNginx = .ok b ∧
      ((Evaluate dbusOkEnabled svcNginx).1.Update = true ↔ svcNginx.Enable ≠ b) :=
  evaluate_update_iff_enablement_differs dbusOkEnabled svcNginx rfl

/-- C6: for every successfully-read ActiveState value, the State Evaluate
returns has Current = running exactly for active/reloading/activating,
Current = stopped exactly for inactive/failed/deactivating, and
Current = unknown for every other value. -/
theorem evaluate_current_mapping (d : Dbus) (s : ServiceResource) (v : String)
    (h : unitProperty d s "ActiveState" = .ok v) :
    (Evaluate d s).1.Current =
      (if v = "active" ∨ v = "reloading" ∨ v = "activating" then StateRunning
       else if v = "inactive" ∨ v = "failed" ∨ v = "deactivating" then StateStopped
       else StateUnknown) := by
  unfold Evaluate
  cases hE : unitIsEnabled d s <;> simp [h, hE]

theorem evaluate_current_mapping_witness :
    (Evaluate dbusOkEnabled svcNginx).1.Current =
      (if ("active" : String) = "active" ∨ ("active" : String) = "reloading" ∨
          ("active" : String) = "activating" then StateRunning
       else if ("active" : String) = "inactive" ∨ ("active" : String) = "failed" ∨
          ("active" : String) = "deactivating" then StateStopped
       else StateUnknown) :=
  evaluate_current_mapping dbusOkEnabled svcNginx "active" rfl

/-- C5: when the UnitFileState property reads successfully but its value
is not one of the recognized enablement strings, unitIsEnabled returns an
explicit error (never a silent false) and Evaluate fails with that error. -/
theorem unrecognized_unit_state_fails (d : Dbus) (s : ServiceResource) (av v : String)
    (hA : unitProperty d s "ActiveState" = .ok av)
    (hU : unitProperty d s "UnitFileState" = .ok v)
    (hv : v ∉ ["enabled", "static", "enabled-runtime", "linked", "linked-runtime",
               "disabled", "masked", "masked-runtime"]) :
    unitIsEnabled d s = .error (.msg "Invalid unit state") ∧
    (Evaluate d s).2 = some (.msg "Invalid unit state") := by
  simp only [List.mem_cons, List.not_mem_nil, or_false, not_or] at hv
  obtain ⟨h1, h2, h3, h4, h5, h6, h7, h8⟩ := hv
  have hE : unitIsEnabled d s = .error (.msg "Invalid unit state") := by
    unfold unitIsEnabled
    simp [hU, h1, h2, h3, h4, h5, h6, h7, h8]
  refine ⟨hE, ?_⟩
  unfold Evaluate
  simp [hA, hE]

theorem unrecognized_unit_state_fails_witness :
    unitIsEnabled dbusBadUnitState svcNginx = .error (.msg "Invalid unit state") ∧
    (Evaluate dbusBadUnitState svcNginx).2 = some (.msg "Invalid unit state") :=
  unrecognized_unit_state_fails dbusBadUnitState svcNginx "active" "garbage"
    rfl rfl (by decide)

/-- C3: once the observed enablement is read, Update makes exactly one
enable-or-disable call — enable when declared-enabled and observed
disabled, disable otherwise — always follows it with a daemon reload,
and returns the reload's result: the enable/disable outcome (a field of
the arbitrary world d) is never propagated. -/
theorem update_unconditional_reload (d : Dbus) (s : ServiceResource) (b : Bool)
    (h : unitIsEnabled d s = .ok b) :
    (Update d s).2 = [(if s.Enable && !b then UnitAction.enable else UnitAction.disable),
                      UnitAction.reload] ∧
    (Update d s).1 = daemonReload d s := by
  unfold Update
  simp only [h]
  split <;> simp_all

theorem update_unconditional_reload_witness :
    (Update dbusOkEnabled svcNginx).2 =
      [(if svcNginx.Enable && !true then UnitAction.enable else UnitAction.disable),
       UnitAction.reload] ∧
    (Update dbusOkEnabled svcNginx).1 = daemonReload dbusOkEnabled svcNginx :=
  update_unconditional_reload dbusOkEnabled svcNginx true rfl

/-- C9: once the connection succeeds and the start (resp. stop) job is
submitted without error, Create (resp. Delete) returns ok whatever the
job result string received over the channel is — even "failed". -/
theorem create_delete_ignore_job_result (d : Dbus) (s : ServiceResource)
    (jid jid2 : Nat) (res res2 : String)
    (hc : d.connect = .ok ())
    (hst : d.startUnit s.UnitName "replace" = .ok (jid, res))
    (hsp : d.stopUnit s.UnitName "replace" = .ok (jid2, res2)) :
    Create d s = .ok () ∧ Delete d s = .ok () := by
  unfold Create Delete
  simp [hc, hst, hsp]

theorem create_delete_ignore_job_result_witness :
    Create dbusOkEnabled svcNginx = .ok () ∧ Delete dbusOkEnabled svcNginx = .ok () :=
  create_delete_ignore_job_result dbusOkEnabled svcNginx 1 2 "failed" "failed"
    rfl rfl rfl

/-- C10: for every successfully-decoded declarative object,
NewServiceResource returns a nil error whatever error mergo.Merge
produced (the merge error is assigned but never checked), and the
returned resource's UnitName is the declared name suffixed with
".service". -/
theorem new_service_resource_ignores_merge_error (s0 : ServiceResource)
    (mergeErr : Option Err) :
    ∃ r, NewServiceResource (.ok s0) mergeErr = .ok r ∧
      r.UnitName = s0.Name ++ ".service" := by
  refine ⟨_, rfl, ?_⟩
  by_cases h : s0.Name = "" <;> simp [mergoMerge, serviceDefaults, h]

/-- Lookup after a concurrent-map Set: the set key answers the new value,
every other key is untouched. -/
theorem cmGet_cmSet (m : List (String × SimpleClassifier)) (k k2 : String)
    (v : SimpleClassifier) :
    cmGet (cmSet m k v) k2 = if k2 = k then some v else cmGet m k2 := by
  induction m with
  | nil =>
    by_cases h : k2 = k
    · subst h; simp [cmSet, cmGet]
    · simp [cmSet, cmGet, h, Ne.symm h]
  | cons p ps ih =>
    by_cases hpk : p.1 = k
    · by_cases hk2 : k2 = k
      · subst hk2; simp [cmSet, cmGet, hpk]
      · have hp2 : ¬p.1 = k2 := by rw [hpk]; exact Ne.symm hk2
        simp [cmSet, cmGet, hpk, hp2, hk2, Ne.symm hk2]
    · by_cases hp2 : p.1 = k2
      · have hk2 : ¬k2 = k := fun h => hpk (hp2.trans h)
        simp [cmSet, cmGet, hpk, hp2, hk2]
      · simp [cmSet, cmGet, hpk, hp2, ih]

/-- The keys present after a Set are the set key plus the old keys. -/
theorem mem_keys_cmSet (m : List (String × SimpleClassifier)) (k : String)
    (v : SimpleClassifier) (x : String) :
    x ∈ (cmSet m k v).map Prod.fst ↔ x = k ∨ x ∈ m.map Prod.fst := by
  induction m with
  | nil => simp [cmSet]
  | cons p ps ih =>
    by_cases hpk : p.1 = k
    · simp only [cmSet, if_pos hpk, List.map_cons]
      rw [hpk]
      simp
    · simp only [cmSet, if_neg hpk, List.map_cons]
      simp [ih]
      tauto

/-- cmSet preserves distinctness of the stored keys. -/
theorem cmSet_keys_nodup (m : List (String × SimpleClassifier)) (k : String)
    (v : SimpleClassifier) (h : (m.map Prod.fst).Nodup) :
    ((cmSet m k v).map Prod.fst).Nodup := by
  induction m with
  | nil => simp [cmSet]
  | cons p ps ih =>
    simp only [List.map_cons, List.nodup_cons] at h
    by_cases hpk : p.1 = k
    · simp only [cmSet, if_pos hpk, List.map_cons, List.nodup_cons]
      exact ⟨hpk ▸ h.1, h.2⟩
    · simp only [cmSet, if_neg hpk, List.map_cons, List.nodup_cons]
      refine ⟨?_, ih h.2⟩
      intro hmem
      rcases (mem_keys_cmSet ps k v p.1).mp hmem with hk | hold
      · exact hpk hk
      · exact h.1 hold

/-- The fan-out fold keeps the aggregate's keys distinct. -/
theorem foldl_workerStep_keys_nodup (w : EtcdWorld) (key : String)
    (us : List String) (m : List (String × SimpleClassifier))
    (h : (m.map Prod.fst).Nodup) :
    ((us.foldl (classifierWorkerStep w key) m).map Prod.fst).Nodup := by
  induction us generalizing m with
  | nil => exact h
  | cons a as ih =>
    rw [List.foldl_cons]
    apply ih
    unfold classifierWorkerStep
    cases hg : GetClassifier w a key with
    | error e => exact h
    | ok c => exact cmSet_keys_nodup m a c h

/-- What the fan-out fold stores under each uuid: the classifier when the
uuid was produced and its lookup succeeds, the prior binding otherwise. -/
theorem cmGet_foldl_workerStep (w : EtcdWorld) (key : String) (us : List String)
    (m : List (String × SimpleClassifier)) (u : String) :
    cmGet (us.foldl (classifierWorkerStep w key) m) u =
      match GetClassifier w u key with
      | .ok c => if u ∈ us then some c else cmGet m u
      | .error _ => cmGet m u := by
  induction us generalizing m with
  | nil => cases hu : GetClassifier w u key <;> simp
  | cons a as ih =>
    rw [List.foldl_cons, ih]
    by_cases hua : u = a
    · subst hua
      cases hu : GetClassifier w u key with
      | error e => simp [classifierWorkerStep, hu]
      | ok c =>
        by_cases hm : u ∈ as
        · simp [hm]
        · simp [classifierWorkerStep, hu, hm, cmGet_cmSet]
    · cases hu : GetClassifier w u key with
      | error e =>
        cases ha : GetClassifier w a key with
        | error e2 => simp [classifierWorkerStep, ha]
        | ok c2 => simp [classifierWorkerStep, ha, cmGet_cmSet, hua]
      | ok c =>
        by_cases hm : u ∈ as
        · simp [hm, hua]
        · cases ha : GetClassifier w a key with
          | error e2 => simp [classifierWorkerStep, ha, hm, hua]
          | ok c2 => simp [classifierWorkerStep, ha, cmGet_cmSet, hm, hua]

/-- C1: when the minion enumeration succeeds, GetClassifiedMinions never
returns an error; the returned aggregate has no duplicate minion keys
and binds exactly the enumerated minions whose per-minion classifier
lookup succeeds to the looked-up classifier — every minion whose lookup
fails is silently omitted. -/
theorem get_classified_minions_exactly_successes (w : EtcdWorld) (key : String)
    (nodes : List EtcdNode) (h : w.list EtcdMinionSpace = .ok nodes) :
    ∃ m, GetClassifiedMinions w key = .ok m ∧
      (m.map Prod.fst).Nodup ∧
      ∀ u c, cmGet m u = some c ↔
        (u ∈ producerUUIDs w nodes ∧ GetClassifier w u key = .ok c) := by
  refine ⟨(producerUUIDs w nodes).foldl (classifierWorkerStep w key) [], ?_, ?_, ?_⟩
  · simp [GetClassifiedMinions, h]
  · exact foldl_workerStep_keys_nodup w key _ [] (by simp)
  · intro u c
    rw [cmGet_foldl_workerStep]
    cases hu : GetClassifier w u key with
    | error e => simp [cmGet]
    | ok c0 =>
      by_cases hm : u ∈ producerUUIDs w nodes
      · simp [hm]
      · simp [hm, cmGet]

theorem get_classified_minions_exactly_successes_witness :
    ∃ m, GetClassifiedMinions wFleet "role" = .ok m ∧
      (m.map Prod.fst).Nodup ∧
      ∀ u c, cmGet m u = some c ↔
        (u ∈ producerUUIDs wFleet [⟨"/gru/minion/m1", ""⟩, ⟨"/gru/minion/m2", ""⟩] ∧
          GetClassifier wFleet u "role" = .ok c) :=
  get_classified_minions_exactly_successes wFleet "role"
    [⟨"/gru/minion/m1", ""⟩, ⟨"/gru/minion/m2", ""⟩] rfl

/-- When every child decodes, the traversal succeeds with one classifier
per child. -/
theorem decodeClassifierNodes_all_ok (w : EtcdWorld) (nodes : List EtcdNode)
    (h : ∀ n ∈ nodes, ∃ c, w.unmarshalClassifier n.value = .ok c) :
    ∃ cs, decodeClassifierNodes w nodes = .ok cs := by
  induction nodes with
  | nil => exact ⟨[], rfl⟩
  | cons n ns ih =>
    obtain ⟨c, hc⟩ := h n (List.mem_cons_self n ns)
    obtain ⟨cs, hcs⟩ := ih (fun m hm => h m (List.mem_cons_of_mem n hm))
    exact ⟨c :: cs, by simp [decodeClassifierNodes, hc, hcs]⟩

/-- When some child fails to decode, the traversal returns a decode error
of one of the children and no list at all. -/
theorem decodeClassifierNodes_error (w : EtcdWorld) (nodes : List EtcdNode)
    (h : ∃ n ∈ nodes, ∃ e, w.unmarshalClassifier n.value = .error e) :
    ∃ e, decodeClassifierNodes w nodes = .error e ∧
      ∃ n ∈ nodes, w.unmarshalClassifier n.value = .error e := by
  induction nodes with
  | nil => simp at h
  | cons n ns ih =>
    cases hd : w.unmarshalClassifier n.value with
    | error e =>
      exact ⟨e, by simp [decodeClassifierNodes, hd], n, List.mem_cons_self n ns, hd⟩
    | ok c =>
      have h2 : ∃ m ∈ ns, ∃ e, w.unmarshalClassifier m.value = .error e := by
        obtain ⟨m, hm, e, he⟩ := h
        rcases List.mem_cons.mp hm with rfl | hm2
        · rw [hd] at he; cases he
        · exact ⟨m, hm2, e, he⟩
      obtain ⟨e, hres, m, hm, he⟩ := ih h2
      exact ⟨e, by simp [decodeClassifierNodes, hd, hres], m,
        List.mem_cons_of_mem n hm, he⟩

/-- C4: once the subtree listing succeeds, GetAllClassifiers decodes
every child — it returns a full list when every child decodes, and when
decoding any single child fails the whole call returns a decode error of
one of the children with no partial list. -/
theorem get_all_classifiers_all_or_nothing (w : EtcdWorld) (u : String)
    (nodes : List EtcdNode)
    (hlist : w.list (classifierDirKey u) = .ok nodes) :
    ((∀ n ∈ nodes, ∃ c, w.unmarshalClassifier n.value = .ok c) →
        ∃ cs, GetAllClassifiers w u = .ok cs) ∧
    ((∃ n ∈ nodes, ∃ e, w.unmarshalClassifier n.value = .error e) →
        ∃ e, GetAllClassifiers w u = .error e ∧
          ∃ n ∈ nodes, w.unmarshalClassifier n.value = .error e) := by
  constructor
  · intro hok
    obtain ⟨cs, hcs⟩ := decodeClassifierNodes_all_ok w nodes hok
    exact ⟨cs, by simp [GetAllClassifiers, hlist, hcs]⟩
  · intro hbad
    obtain ⟨e, hres, hn⟩ := decodeClassifierNodes_error w nodes hbad
    exact ⟨e, by simp [GetAllClassifiers, hlist, hres], hn⟩

theorem get_all_classifiers_all_or_nothing_witness :
    ∃ e, GetAllClassifiers wFleet "m1" = .error e ∧
      ∃ n ∈ [(⟨classifierKey "m1" "role", "good"⟩ : EtcdNode),
             ⟨classifierKey "m1" "bogus", "bad"⟩],
        wFleet.unmarshalClassifier n.value = .error e :=
  (get_all_classifiers_all_or_nothing wFleet "m1"
      [⟨classifierKey "m1" "role", "good"⟩, ⟨classifierKey "m1" "bogus", "bad"⟩]
      rfl).2
    ⟨⟨classifierKey "m1" "bogus", "bad"⟩,
      List.mem_cons_of_mem _ (List.mem_cons_self _ _), .decode "invalid json", rfl⟩

/-- C7: SubmitTask inserts nothing when the minion root check or the task
serialization fails — the queues are untouched and the error is returned
— and likewise returns the insert's own error with the queues untouched
when the ordered insert fails; only when root check, serialization and
insert all succeed does it append exactly one ordered entry, the
serialized task, at the tail of the minion's queue, leaving every other
queue unchanged. -/
theorem submit_task_guards_then_ordered_insert (w : EtcdWorld) (u : String)
    (t : MinionTask) :
    (∀ e, w.get (minionRootDir u) = .error e →
        (SubmitTask w u t).1 = .error e ∧
        ∀ d, (SubmitTask w u t).2.queues d = w.queues d) ∧
    (∀ v e, w.get (minionRootDir u) = .ok v → w.marshalTask t = .error e →
        (SubmitTask w u t).1 = .error e ∧
        ∀ d, (SubmitTask w u t).2.queues d = w.queues d) ∧
    (∀ v data e, w.get (minionRootDir u) = .ok v → w.marshalTask t = .ok data →
        w.createInOrder (queueDir u) data = .error e →
        (SubmitTask w u t).1 = .error e ∧
        ∀ d, (SubmitTask w u t).2.queues d = w.queues d) ∧
    (∀ v data r, w.get (minionRootDir u) = .ok v → w.marshalTask t = .ok data →
        w.createInOrder (queueDir u) data = .ok r →
        (SubmitTask w u t).1 = .ok () ∧
        (SubmitTask w u t).2.queues (queueDir u) = w.queues (queueDir u) ++ [data] ∧
        ∀ d, d ≠ queueDir u → (SubmitTask w u t).2.queues d = w.queues d) := by
  refine ⟨?_, ?_, ?_, ?_⟩
  · intro e he
    simp [SubmitTask, he]
  · intro v e hv he
    simp [SubmitTask, hv, he]
  · intro v data e hv hdata hins
    simp [SubmitTask, hv, hdata, hins]
  · intro v data r hv hdata hins
    refine ⟨by simp [SubmitTask, hv, hdata, hins], ?_, ?_⟩
    · simp [SubmitTask, hv, hdata, hins, appendQueue]
    · intro d hd
      simp [SubmitTask, hv, hdata, hins, appendQueue, hd]

theorem submit_task_guards_then_ordered_insert_witness :
    (SubmitTask wFleet "m1" ⟨"t1", "uptime"⟩).1 = .ok () ∧
    (SubmitTask wFleet "m1" ⟨"t1", "uptime"⟩).2.queues (queueDir "m1") =
      wFleet.queues (queueDir "m1") ++ ["uptime"] ∧
    ∀ d, d ≠ queueDir "m1" →
      (SubmitTask wFleet "m1" ⟨"t1", "uptime"⟩).2.queues d = wFleet.queues d :=
  (submit_task_guards_then_ordered_insert wFleet "m1" ⟨"t1", "uptime"⟩).2.2.2
    "" "uptime" "uptime" rfl rfl rfl

/-- C8: for a present, uuid-valid minion argument, a typed key-not-found
etcd error from the classifier-key listing is filtered out and the
command returns quietly; every other listing error exits through
displayError with code 1. -/
theorem classifier_command_filters_keynotfound (args : List String)
    (p : String → Option String) (w : CmdWorld) (a u : String)
    (hargs : args = [a]) (hp : p a = some u) :
    (w.minionClassifierKeys = .error (.etcdErr ErrorCodeKeyNotFound) →
        execClassifierCommand args p w = .quiet) ∧
    (∀ e, w.minionClassifierKeys = .error e →
        e ≠ .etcdErr ErrorCodeKeyNotFound →
        execClassifierCommand args p w = .errExit 1) := by
  subst hargs
  constructor
  · intro hk
    simp [execClassifierCommand, hp, hk, ErrorCodeKeyNotFound]
  · intro e hk hne
    cases e with
    | etcdErr code =>
      have hcode : ¬code = ErrorCodeKeyNotFound := fun hc => hne (by rw [hc])
      simp [execClassifierCommand, hp, hk, hcode]
    | otherErr m =>
      simp [execClassifierCommand, hp, hk]

theorem classifier_command_filters_keynotfound_witness :
    execClassifierCommand ["abc"] (fun s => some s) cmdWorldMissingDir = .quiet :=
  (classifier_command_filters_keynotfound ["abc"] (fun s => some s)
      cmdWorldMissingDir "abc" "abc" rfl rfl).1 rfl

end Gru
